import Mathlib

/-!
Verification of the TukangKripto trading-bot core: a shallow embedding of
`tukang_kripto/technical_analysis.py` (indicator engine, signal extractor,
decision function and stop-loss gate) over lists of rationals, with the
properties of the specification proved or refuted against it.

Pandas float columns are modelled as `List ℚ`; boolean columns as
`List Bool`.  Row access past the end (pandas `shift` producing NaN) is
modelled explicitly at each use site.
-/

namespace TukangKripto

/-- Elements of `(List.range n).map f` at a valid index. -/
theorem getD_range_map {β : Type} (f : ℕ → β) (n i : ℕ) (d : β) (h : i < n) :
    ((List.range n).map f).getD i d = f i := by
  have h1 : ((List.range n).map f)[i]? = some (f i) := by
    rw [List.getElem?_map, List.getElem?_range h]
    rfl
  simp [List.getD, h1]

/-- Embeds `getInterval` of `technical_analysis.py`: the signal extractor.
`len(df) == 0` returns the dataframe unchanged, otherwise `df.tail(1)`,
the one-row suffix holding the most recent entry. -/
def getInterval {α : Type} (df : List α) : List α :=
  if df.length = 0 then df else df.drop (df.length - 1)

theorem drop_length_sub_one {α : Type} (l : List α) (h : l ≠ []) :
    l.drop (l.length - 1) = [l.getLast h] := by
  induction l with
  | nil => exact absurd rfl h
  | cons a t ih =>
    cases t with
    | nil => simp
    | cons b t' =>
      have hne : b :: t' ≠ [] := by simp
      have : (a :: b :: t').length - 1 = (b :: t').length := by simp
      rw [this]
      have hdrop : (a :: b :: t').drop (b :: t').length
          = (b :: t').drop ((b :: t').length - 1) := by
        simp [List.drop]
      rw [hdrop, ih hne]
      simp [List.getLast]

end TukangKripto

namespace TukangKripto

/-- C7: `getInterval` returns exactly the single most recent row of a
non-empty series, and returns the empty series itself (no error) when the
input is empty. -/
theorem getInterval_last_row :
    (∀ (α : Type) (df : List α) (h : df ≠ []), getInterval df = [df.getLast h])
      ∧ getInterval ([] : List ℚ) = [] := by
  constructor
  · intro α df h
    have hlen : df.length ≠ 0 := by
      intro hc
      exact h (List.length_eq_zero.mp hc)
    unfold getInterval
    rw [if_neg hlen]
    exact drop_length_sub_one df h
  · rfl

/-- Witness for C7 at a concrete two-row series. -/
theorem getInterval_last_row_witness :
    getInterval [(3 : ℚ), 7] = [7] := by
  have h : ([(3 : ℚ), 7] : List ℚ) ≠ [] := by simp
  have := getInterval_last_row.1 ℚ [(3 : ℚ), 7] h
  simpa using this

/-- Running cumulative sums (numpy `cumsum`): entry `i` is the sum of the
first `i + 1` entries of `xs`. -/
def cumsum (xs : List ℚ) : List ℚ :=
  (List.range xs.length).map (fun i => (xs.take (i + 1)).sum)

/-- The per-row value of the nested `numpy.where` inside
`TechnicalAnalysis.add_on_balance_volume`.  On row 0 every comparison of
`close` with `close.shift(1)` is a comparison with NaN and therefore
false, so row 0 falls through all three conditions to the innermost
else-value, which is the scalar `self.df.iloc[0]["volume"]`. -/
def obvContrib (closes vols : List ℚ) (j : ℕ) : ℚ :=
  if j = 0 then vols.getD 0 0
  else if closes.getD j 0 = closes.getD (j - 1) 0 then 0
  else if closes.getD (j - 1) 0 < closes.getD j 0 then vols.getD j 0
  else if closes.getD j 0 < closes.getD (j - 1) 0 then -(vols.getD j 0)
  else vols.getD 0 0

/-- Embeds `TechnicalAnalysis.add_on_balance_volume`: the `obv` column, the
cumulative sum of the nested-`where` row values. -/
def add_on_balance_volume (closes vols : List ℚ) : List ℚ :=
  cumsum ((List.range closes.length).map (obvContrib closes vols))

/-- The `obv` column as the claim words it: cumulative signed volume with
the first row (no previous close) contributing 0.  Written from the
spec's sentence, for comparison with `add_on_balance_volume`. -/
def obvClaimed (closes vols : List ℚ) : List ℚ :=
  cumsum ((List.range closes.length).map (fun j =>
    if j = 0 then 0
    else if closes.getD (j - 1) 0 < closes.getD j 0 then vols.getD j 0
    else if closes.getD j 0 < closes.getD (j - 1) 0 then -(vols.getD j 0)
    else 0))

/-- The signed-volume contribution of a row `j ≥ 1`. -/
def signedVol (closes vols : List ℚ) (j : ℕ) : ℚ :=
  if closes.getD (j - 1) 0 < closes.getD j 0 then vols.getD j 0
  else if closes.getD j 0 < closes.getD (j - 1) 0 then -(vols.getD j 0)
  else 0

theorem obvContrib_succ (closes vols : List ℚ) (k : ℕ) :
    obvContrib closes vols (k + 1) = signedVol closes vols (k + 1) := by
  unfold obvContrib signedVol
  have hne : k + 1 ≠ 0 := Nat.succ_ne_zero k
  rw [if_neg hne]
  rcases lt_trichotomy (closes.getD (k + 1) 0) (closes.getD (k + 1 - 1) 0) with h | h | h
  · rw [if_neg (ne_of_lt h), if_neg (not_lt_of_gt h), if_pos h,
      if_neg (not_lt_of_gt h), if_pos h]
  · rw [if_pos h, if_neg (by rw [h]; exact lt_irrefl _),
      if_neg (by rw [h]; exact lt_irrefl _)]
  · rw [if_neg (ne_of_gt h), if_pos h, if_pos h]

/-- C9 counterexample: on closes `[1, 2]` with volumes `[5, 3]` the code's
`obv` column is `[5, 8]` (the first row contributes its own volume through
the numpy fall-through), while the claimed cumulative signed volume with a
zero first-row contribution is `[0, 3]`. -/
theorem obv_first_row_counterexample :
    add_on_balance_volume [(1 : ℚ), 2] [5, 3] = [5, 8]
      ∧ obvClaimed [(1 : ℚ), 2] [5, 3] = [0, 3]
      ∧ add_on_balance_volume [(1 : ℚ), 2] [5, 3] ≠ obvClaimed [(1 : ℚ), 2] [5, 3] := by
  refine ⟨?_, ?_, ?_⟩ <;>
    norm_num [add_on_balance_volume, obvClaimed, cumsum, obvContrib,
      List.range_succ]

/-- C9 amended: row `i` of the `obv` column equals `volume[0]` (the first
row contributes its own volume, via the innermost `where` else-value) plus
the sum over rows `1 ≤ j ≤ i` of the signed volume: `+volume[j]` when
close rises, `-volume[j]` when it falls, `0` on ties. -/
theorem obv_cumulative_signed (closes vols : List ℚ) (i : ℕ)
    (hi : i < closes.length) :
    (add_on_balance_volume closes vols).getD i 0
      = vols.getD 0 0
        + ((List.range i).map (fun k => signedVol closes vols (k + 1))).sum := by
  unfold add_on_balance_volume cumsum
  set xs := (List.range closes.length).map (obvContrib closes vols) with hxs
  have hlen : xs.length = closes.length := by simp [hxs]
  rw [hlen]
  rw [getD_range_map _ _ _ _ hi]
  have htake : xs.take (i + 1) = (List.range (i + 1)).map (obvContrib closes vols) := by
    rw [hxs, ← List.map_take, List.take_range,
      Nat.min_eq_left (Nat.succ_le_of_lt hi)]
  rw [htake, List.range_succ_eq_map, List.map_cons, List.sum_cons, List.map_map]
  have hcongr : (List.range i).map (obvContrib closes vols ∘ Nat.succ)
      = (List.range i).map (fun k => signedVol closes vols (k + 1)) := by
    apply List.map_congr_left
    intro a _
    exact obvContrib_succ closes vols a
  rw [hcongr]
  simp [obvContrib]

/-- Witness for C9's amended theorem on a four-row series. -/
theorem obv_cumulative_signed_witness :
    3 < ([(1 : ℚ), 2, 2, 1] : List ℚ).length
      ∧ (add_on_balance_volume [(1 : ℚ), 2, 2, 1] [5, 3, 4, 7]).getD 3 0
          = ([(5 : ℚ), 3, 4, 7] : List ℚ).getD 0 0
            + ((List.range 3).map
                (fun k => signedVol [(1 : ℚ), 2, 2, 1] [5, 3, 4, 7] (k + 1))).sum :=
  ⟨by norm_num,
    obv_cumulative_signed [(1 : ℚ), 2, 2, 1] [5, 3, 4, 7] 3 (by norm_num)⟩

/-- pandas `close.rolling(period, min_periods=1).mean()`: row `i` is the
mean of the trailing window of the last `min(i + 1, period)` closes. -/
def rollingMean (p : ℕ) (xs : List ℚ) : List ℚ :=
  (List.range xs.length).map (fun i =>
    ((xs.take (i + 1)).drop (i + 1 - p)).sum
      / ((((xs.take (i + 1)).drop (i + 1 - p)).length : ℕ) : ℚ))

/-- Embeds `TechnicalAnalysis.simple_moving_average`, with its period-range
and data-range guards. -/
def simple_moving_average (p : ℕ) (xs : List ℚ) : Except String (List ℚ) :=
  if p < 5 ∨ 200 < p then .error "Period is out of range"
  else if xs.length < p then .error "Data range too small."
  else .ok (rollingMean p xs)

/-- C4: for every period `p ∈ [5, 200]` and series with at least `p` rows,
`simple_moving_average` succeeds with a column of the input's length where
row `i ≥ p - 1` is the mean of the `p` trailing closes ending at `i` and
row `i < p - 1` is the mean of all closes up to and including `i` (partial
window, so no undefined leading values). -/
theorem sma_trailing_window (p : ℕ) (xs : List ℚ)
    (h1 : 5 ≤ p) (h2 : p ≤ 200) (h3 : p ≤ xs.length) :
    ∃ out, simple_moving_average p xs = .ok out
      ∧ out.length = xs.length
      ∧ (∀ i, p - 1 ≤ i → i < xs.length →
          out.getD i 0 = ((xs.drop (i + 1 - p)).take p).sum / (p : ℚ))
      ∧ (∀ i, i < p - 1 →
          out.getD i 0 = (xs.take (i + 1)).sum / ((i + 1 : ℕ) : ℚ)) := by
  refine ⟨rollingMean p xs, ?_, by simp [rollingMean], ?_, ?_⟩
  · unfold simple_moving_average
    rw [if_neg (by omega), if_neg (by omega)]
  · intro i hpi hi
    unfold rollingMean
    rw [getD_range_map _ _ _ _ hi]
    have hp1 : p ≤ i + 1 := by omega
    rw [List.drop_take (i + 1) (i + 1 - p) xs]
    have hsub : i + 1 - (i + 1 - p) = p := by omega
    rw [hsub]
    have hlen : (((xs.drop (i + 1 - p)).take p).length : ℕ) = p := by
      rw [List.length_take, List.length_drop]
      omega
    rw [hlen]
  · intro i hip
    have hi : i < xs.length := by omega
    unfold rollingMean
    rw [getD_range_map _ _ _ _ hi]
    have hz : i + 1 - p = 0 := by omega
    rw [hz, List.drop_zero]
    have hlen : ((xs.take (i + 1)).length : ℕ) = i + 1 := by
      rw [List.length_take]
      omega
    rw [hlen]

/-- Witness for C4 at `p = 5` on a six-row series, checking both the full
and the partial window cases. -/
theorem sma_trailing_window_witness :
    5 ≤ 5 ∧ 5 ≤ 200 ∧ 5 ≤ ([(1 : ℚ), 2, 3, 4, 5, 6] : List ℚ).length
      ∧ ∃ out, simple_moving_average 5 [(1 : ℚ), 2, 3, 4, 5, 6] = .ok out
        ∧ out.length = ([(1 : ℚ), 2, 3, 4, 5, 6] : List ℚ).length
        ∧ (∀ i, 5 - 1 ≤ i → i < ([(1 : ℚ), 2, 3, 4, 5, 6] : List ℚ).length →
            out.getD i 0
              = ((([(1 : ℚ), 2, 3, 4, 5, 6] : List ℚ).drop (i + 1 - 5)).take 5).sum
                  / ((5 : ℕ) : ℚ))
        ∧ (∀ i, i < 5 - 1 →
            out.getD i 0
              = (([(1 : ℚ), 2, 3, 4, 5, 6] : List ℚ).take (i + 1)).sum
                  / ((i + 1 : ℕ) : ℚ)) :=
  ⟨by norm_num, by norm_num, by norm_num,
    sma_trailing_window 5 [(1 : ℚ), 2, 3, 4, 5, 6]
      (by norm_num) (by norm_num) (by norm_num)⟩

/-- pandas `Series.ewm(span=period, adjust=False).mean()` with
`α = 2 / (span + 1)`: seeded by the first value, then
`y_t = (1 - α) * y_(t-1) + α * x_t`. -/
def ewm (α : ℚ) : List ℚ → List ℚ
  | [] => []
  | x :: rest => rest.scanl (fun y v => (1 - α) * y + α * v) x

theorem ewm_length (α : ℚ) (xs : List ℚ) : (ewm α xs).length = xs.length := by
  cases xs with
  | nil => rfl
  | cons x rest => simp [ewm, List.length_scanl]

/-- Embeds `TechnicalAnalysis.exponential_moving_average`, with its guards. -/
def exponential_moving_average (p : ℕ) (xs : List ℚ) : Except String (List ℚ) :=
  if p < 5 ∨ 200 < p then .error "Period is out of range"
  else if xs.length < p then .error "Data range too small."
  else .ok (ewm (2 / (p + 1)) xs)

/-- The crossover flag `(fast > slow) & (fast.shift(1) <= slow.shift(1))`
of `add_golden_cross`.  On row 0 the shifted values are NaN, so the `<=`
comparison is false there. -/
def gcFlag (fast slow : List ℚ) : List Bool :=
  (List.range fast.length).map (fun i =>
    decide (slow.getD i 0 < fast.getD i 0
      ∧ 0 < i ∧ fast.getD (i - 1) 0 ≤ slow.getD (i - 1) 0))

/-- The `golden_cross_ema` column that `add_golden_cross` assigns on a
fresh series: the crossover flag of `ema5` (span 5, `α = 2/6 = 1/3`) over
`ema20` (span 20, `α = 2/21`), both computed from `close`. -/
def golden_cross_ema_col (closes : List ℚ) : List Bool :=
  gcFlag (ewm (1 / 3) closes) (ewm (2 / 21) closes)

/-- C3: the `golden_cross_ema` flag at row `i` is true exactly when
`ema5 > ema20` at `i` and `ema5 ≤ ema20` at `i - 1` (false at row 0), and
within any contiguous run of rows on which `ema5` stays above `ema20` the
flag is true on at most one row. -/
theorem golden_cross_ema_transition (closes : List ℚ)
    (_h20 : 20 ≤ closes.length) :
    (∀ i, i < closes.length →
      ((golden_cross_ema_col closes).getD i false = true ↔
        (0 < i
          ∧ (ewm (2 / 21) closes).getD i 0 < (ewm (1 / 3) closes).getD i 0
          ∧ (ewm (1 / 3) closes).getD (i - 1) 0
              ≤ (ewm (2 / 21) closes).getD (i - 1) 0)))
    ∧ (∀ a b i j,
        (∀ k, a ≤ k → k ≤ b →
          (ewm (2 / 21) closes).getD k 0 < (ewm (1 / 3) closes).getD k 0) →
        a ≤ i → i < j → j ≤ b →
        (golden_cross_ema_col closes).getD i false = true →
        (golden_cross_ema_col closes).getD j false = true → False) := by
  have hflag : ∀ i, i < closes.length →
      ((golden_cross_ema_col closes).getD i false = true ↔
        (0 < i
          ∧ (ewm (2 / 21) closes).getD i 0 < (ewm (1 / 3) closes).getD i 0
          ∧ (ewm (1 / 3) closes).getD (i - 1) 0
              ≤ (ewm (2 / 21) closes).getD (i - 1) 0)) := by
    intro i hi
    unfold golden_cross_ema_col gcFlag
    rw [ewm_length]
    rw [getD_range_map _ _ _ _ hi, decide_eq_true_iff]
    tauto
  refine ⟨hflag, ?_⟩
  intro a b i j hrun hai hij hjb _ hj
  have hjlen : j < closes.length := by
    by_contra hc
    push_neg at hc
    have hlen : (golden_cross_ema_col closes).length ≤ j := by
      unfold golden_cross_ema_col gcFlag
      rw [List.length_map, List.length_range, ewm_length]
      exact hc
    rw [List.getD_eq_default _ _ hlen] at hj
    exact Bool.false_ne_true hj
  have h := (hflag j hjlen).mp hj
  have hk := hrun (j - 1) (by omega) (by omega)
  exact absurd h.2.2 (not_le_of_lt hk)

/-- Witness for C3 on a concrete 20-row series. -/
theorem golden_cross_ema_transition_witness :
    20 ≤ (List.replicate 20 (0 : ℚ)).length
      ∧ ((∀ i, i < (List.replicate 20 (0 : ℚ)).length →
          ((golden_cross_ema_col (List.replicate 20 (0 : ℚ))).getD i false = true ↔
            (0 < i
              ∧ (ewm (2 / 21) (List.replicate 20 (0 : ℚ))).getD i 0
                  < (ewm (1 / 3) (List.replicate 20 (0 : ℚ))).getD i 0
              ∧ (ewm (1 / 3) (List.replicate 20 (0 : ℚ))).getD (i - 1) 0
                  ≤ (ewm (2 / 21) (List.replicate 20 (0 : ℚ))).getD (i - 1) 0)))
        ∧ (∀ a b i j,
            (∀ k, a ≤ k → k ≤ b →
              (ewm (2 / 21) (List.replicate 20 (0 : ℚ))).getD k 0
                < (ewm (1 / 3) (List.replicate 20 (0 : ℚ))).getD k 0) →
            a ≤ i → i < j → j ≤ b →
            (golden_cross_ema_col (List.replicate 20 (0 : ℚ))).getD i false = true →
            (golden_cross_ema_col (List.replicate 20 (0 : ℚ))).getD j false = true →
            False)) :=
  ⟨by norm_num,
    golden_cross_ema_transition (List.replicate 20 (0 : ℚ)) (by norm_num)⟩

/-- Embeds `series.diff(1).dropna()`: the consecutive close-to-close deltas. -/
def diffs (xs : List ℚ) : List ℚ :=
  (xs.zip xs.tail).map (fun q => q.2 - q.1)

/-- The adjusted exponentially-weighted mean of pandas
`ewm(com=interval - 1, min_periods=interval).mean()` (`adjust=True` is the
default) at a position `t` with at least `interval` observations: the
weights are `(1 - α)^k` over the whole prefix, with
`α = 1/(1 + com) = 1/interval`. -/
def wilderAvg (p : ℕ) (ds : List ℚ) (t : ℕ) : ℚ :=
  (((List.range (t + 1)).map
      (fun k => (1 - 1 / (p : ℚ)) ^ k * ds.getD (t - k) 0)).sum)
    / (((List.range (t + 1)).map (fun k => (1 - 1 / (p : ℚ)) ^ k)).sum)

/-- One defined entry of `calculate_relative_strength_index`:
`rs = abs(avg_gains / avg_losses)` and `rsi = 100 - 100/(1 + rs)` in
float arithmetic.  `sum_gains` keeps the positive deltas (`max d 0`) and
`sum_losses` the negative ones (`min d 0`).  When `avg_losses = 0` the
float quotient is `±inf`, so `rsi = 100 - 100/inf = 100` — unless
`avg_gains = 0` too, in which case `0/0` is NaN and the subsequent
`fillna(50)` turns the entry into 50. -/
def rsiEntry (p : ℕ) (ds : List ℚ) (t : ℕ) : ℚ :=
  let ag := wilderAvg p (ds.map (fun d => max d 0)) t
  let al := wilderAvg p (ds.map (fun d => min d 0)) t
  if al = 0 then (if ag = 0 then 50 else 100)
  else 100 - 100 / (1 + |ag / al|)

/-- Embeds `TechnicalAnalysis.add_relative_strength_index`: the `rsi{period}`
column.  Rows `1 ≤ i ≤ p - 1` are NaN through `min_periods` and row 0 is
NaN through index alignment of the `diff`-based series; `fillna(50)` and
`replace(nan, 50)` turn all of them into 50.  Row `i ≥ p` holds the RSI
of the delta at position `t = i - 1` of the diff series. -/
def add_relative_strength_index (p : ℕ) (closes : List ℚ) :
    Except String (List ℚ) :=
  if p < 7 ∨ 21 < p then .error "Period is out of range"
  else if closes.length < p then .error "Pandas Series smaller than interval."
  else .ok ((List.range closes.length).map (fun i =>
    if i < p then 50 else rsiEntry p (diffs closes) (i - 1)))

theorem rsiEntry_bounds (p : ℕ) (ds : List ℚ) (t : ℕ) :
    0 ≤ rsiEntry p ds t ∧ rsiEntry p ds t ≤ 100 := by
  unfold rsiEntry
  set ag := wilderAvg p (ds.map (fun d => max d 0)) t
  set al := wilderAvg p (ds.map (fun d => min d 0)) t
  simp only []
  split_ifs with h1 h2
  · norm_num
  · norm_num
  · have hr : 0 ≤ |ag / al| := abs_nonneg _
    have hpos : (0 : ℚ) < 1 + |ag / al| := by linarith
    have hle : 100 / (1 + |ag / al|) ≤ 100 :=
      div_le_self (by norm_num) (by linarith)
    have hgt : 0 < 100 / (1 + |ag / al|) := div_pos (by norm_num) hpos
    constructor <;> linarith

/-- C5: for every period `p ∈ [7, 21]` and series with at least `p` rows,
the `rsi` column has the input's length, every entry lies in `[0, 100]`,
and the leading rows where the Wilder-smoothed averages are undefined
(rows `0 … p - 1`) hold exactly 50. -/
theorem rsi_bounds (p : ℕ) (closes : List ℚ)
    (h1 : 7 ≤ p) (h2 : p ≤ 21) (h3 : p ≤ closes.length) :
    ∃ col, add_relative_strength_index p closes = .ok col
      ∧ col.length = closes.length
      ∧ (∀ i, i < p → i < closes.length → col.getD i 0 = 50)
      ∧ (∀ i, i < closes.length → 0 ≤ col.getD i 0 ∧ col.getD i 0 ≤ 100) := by
  refine ⟨(List.range closes.length).map (fun i =>
      if i < p then 50 else rsiEntry p (diffs closes) (i - 1)), ?_, by simp,
      ?_, ?_⟩
  · unfold add_relative_strength_index
    rw [if_neg (by omega), if_neg (by omega)]
  · intro i hip hi
    rw [getD_range_map _ _ _ _ hi, if_pos hip]
  · intro i hi
    rw [getD_range_map _ _ _ _ hi]
    split_ifs with hip
    · norm_num
    · exact rsiEntry_bounds p (diffs closes) (i - 1)

/-- Witness for C5 at `p = 7` on an eight-row series. -/
theorem rsi_bounds_witness :
    7 ≤ 7 ∧ 7 ≤ 21 ∧ 7 ≤ ([(1 : ℚ), 2, 1, 3, 2, 4, 3, 5] : List ℚ).length
      ∧ ∃ col,
        add_relative_strength_index 7 [(1 : ℚ), 2, 1, 3, 2, 4, 3, 5] = .ok col
          ∧ col.length = ([(1 : ℚ), 2, 1, 3, 2, 4, 3, 5] : List ℚ).length
          ∧ (∀ i, i < 7 → i < ([(1 : ℚ), 2, 1, 3, 2, 4, 3, 5] : List ℚ).length →
              col.getD i 0 = 50)
          ∧ (∀ i, i < ([(1 : ℚ), 2, 1, 3, 2, 4, 3, 5] : List ℚ).length →
              0 ≤ col.getD i 0 ∧ col.getD i 0 ≤ 100) :=
  ⟨by norm_num, by norm_num, by norm_num,
    rsi_bounds 7 [(1 : ℚ), 2, 1, 3, 2, 4, 3, 5]
      (by norm_num) (by norm_num) (by norm_num)⟩

/-- One row of the per-coin `transaction_{coin}.csv` file, with columns
`date, coin_name, type, coin_amount, price, amount` (the `type` column is
called `ttype` here). -/
structure TxRow where
  date : String := ""
  coin_name : String := ""
  ttype : String := ""
  coin_amount : ℚ := 0
  price : ℚ := 0
  amount : ℚ := 0
deriving DecidableEq

/-- Embeds `utils.get_latest_csv_transaction`: the last CSV row whose `type`
column matches the requested transaction type; `none` models the empty
list Python returns when no row matches. -/
def get_latest_csv_transaction (rows : List TxRow) (t : String) : Option TxRow :=
  (rows.filter (fun r => r.ttype = t)).getLast?

/-- Embeds `technical_analysis.get_last_buy_price`: the price field of the last
`buy` row (a found row has six fields, so `len(last_buy) > 1` holds);
`None` when no buy is recorded. -/
def get_last_buy_price (rows : List TxRow) : Option ℚ :=
  match get_latest_csv_transaction rows "buy" with
  | some row => some row.price
  | none => none

/-- Python's built-in `round` on a float with no digits argument: the
nearest integer, ties going to the even integer. -/
def pyRound (x : ℚ) : ℤ :=
  if x - ⌊x⌋ < 1 / 2 then ⌊x⌋
  else if 1 / 2 < x - ⌊x⌋ then ⌊x⌋ + 1
  else if 2 ∣ ⌊x⌋ then ⌊x⌋ else ⌊x⌋ + 1

/-- The fields of `app_state.AppState` (with `maximum_loss_percentage`
from its `config_trade` section) that `getAction` and `stop_loss` read.
The per-coin CSV file that `config_trade["symbol"]` selects is passed
separately as a row list. -/
structure AppState where
  last_action : String := ""
  buy_count : ℕ := 0
  sell_count : ℕ := 0
  market_price : ℚ := 0
  maximum_loss_percentage : ℚ := 0
  debug : Bool := false
deriving DecidableEq

/-- Embeds `technical_analysis.stop_loss`.  `max_loss` is
`round(last_price - last_price * max_loss_rate)` with
`max_loss_rate = loss_rate / 100`.  The result is an `Except` because the
final `MASIH AMAN` log line interpolates `max_loss`, a local that is
assigned only inside `if last_price:`: when no buy is recorded (or the
recorded price is exactly 0 and hence falsy) that f-string raises
`UnboundLocalError`. -/
def stop_loss (state : AppState) (rows : List TxRow) : Except String Bool :=
  if state.maximum_loss_percentage = 0 ∨ state.market_price = 0 then .ok false
  else
    match get_last_buy_price rows with
    | some last_price =>
      if last_price ≠ 0 then
        if state.market_price
            ≤ (pyRound (last_price
                - last_price * (state.maximum_loss_percentage / 100)) : ℚ) then
          .ok true
        else .ok false
      else .error "UnboundLocalError: max_loss referenced before assignment"
    | none => .error "UnboundLocalError: max_loss referenced before assignment"

/-- The boolean columns of the one-row signal frame that
`technical_analysis.getAction` reads out of `df_last`.  Only
`golden_cross_ema` and `death_cross_ema` reach the decision; the others
are read and, when `state.debug` is set, logged. -/
structure SignalRow where
  ema12ltema26 : Bool := false
  ema12gtema26 : Bool := false
  golden_cross : Bool := false
  golden_cross_ema : Bool := false
  death_cross_ema : Bool := false
  hammer : Bool := false
  inverted_hammer : Bool := false
  hanging_man : Bool := false
  shooting_star : Bool := false
  three_white_soldiers : Bool := false
  three_black_crows : Bool := false
  morning_star : Bool := false
  evening_star : Bool := false
  three_line_strike : Bool := false
  abandoned_baby : Bool := false
  morning_doji_star : Bool := false
  evening_doji_star : Bool := false
  two_black_gapping : Bool := false
deriving DecidableEq

/-- Embeds `technical_analysis.getAction`.  The `now`, `app`, `price`, `df` and
`debug` parameters do not influence the returned action and are omitted;
an exception from `stop_loss` propagates. -/
def getAction (df_last : SignalRow) (last_action : String) (state : AppState)
    (rows : List TxRow) : Except String String :=
  match stop_loss state rows with
  | .error e => .error e
  | .ok true => .ok "SELL"
  | .ok false =>
    if df_last.golden_cross_ema = true ∧ last_action ≠ "BUY" then .ok "BUY"
    else if df_last.death_cross_ema = true
        ∧ ¬(last_action = "" ∨ last_action = "SELL") then .ok "SELL"
    else .ok "WAIT"

/-- C1: `getAction` applies its rules in strict precedence order —
stop-loss SELL first (pre-empting a simultaneous golden-cross BUY), then
the golden-cross BUY check, then the death-cross SELL check, else WAIT. -/
theorem getAction_precedence (df_last : SignalRow) (last_action : String)
    (state : AppState) (rows : List TxRow) :
    (getAction df_last last_action state rows
        = (stop_loss state rows).map (fun fired =>
            if fired then "SELL"
            else if df_last.golden_cross_ema = true ∧ last_action ≠ "BUY" then
              "BUY"
            else if df_last.death_cross_ema = true
                ∧ ¬(last_action = "" ∨ last_action = "SELL") then "SELL"
            else "WAIT"))
      ∧ (stop_loss state rows = .ok true →
          getAction df_last last_action state rows = .ok "SELL") := by
  constructor
  · unfold getAction
    cases h : stop_loss state rows with
    | error e => rfl
    | ok b =>
      cases b with
      | true => rfl
      | false =>
        simp only [Except.map]
        have hred : (if (false : Bool) = true then ("SELL" : String)
            else if df_last.golden_cross_ema = true ∧ last_action ≠ "BUY" then
              "BUY"
            else if df_last.death_cross_ema = true
                ∧ ¬(last_action = "" ∨ last_action = "SELL") then "SELL"
            else "WAIT")
            = (if df_last.golden_cross_ema = true ∧ last_action ≠ "BUY" then
              "BUY"
            else if df_last.death_cross_ema = true
                ∧ ¬(last_action = "" ∨ last_action = "SELL") then "SELL"
            else "WAIT") := rfl
        rw [hred]
        split_ifs <;> rfl
  · intro h
    unfold getAction
    rw [h]

/-- Witness for C1: with a recorded buy at 1000, a 10% stop-loss and a
market price of 900 the stop-loss fires, and SELL is returned even though
the bar's golden-cross flag is set and `last_action ≠ BUY`. -/
theorem getAction_precedence_witness :
    stop_loss { market_price := 900, maximum_loss_percentage := 10 }
        [{ ttype := "buy", price := 1000 }] = .ok true
      ∧ getAction { golden_cross_ema := true } "WAIT"
          { market_price := 900, maximum_loss_percentage := 10 }
          [{ ttype := "buy", price := 1000 }] = .ok "SELL" := by
  have h : stop_loss { market_price := 900, maximum_loss_percentage := 10 }
      [{ ttype := "buy", price := 1000 }] = .ok true := by
    norm_num [stop_loss, get_last_buy_price, get_latest_csv_transaction,
      pyRound]
  exact ⟨h,
    (getAction_precedence { golden_cross_ema := true } "WAIT"
      { market_price := 900, maximum_loss_percentage := 10 }
      [{ ttype := "buy", price := 1000 }]).2 h⟩

/-- C2 counterexample: with a 1% stop-loss, a recorded buy at 999 and a
market price of 989.01 — exactly the claimed threshold
`999 × (1 − 1/100)` — the claim predicts a forced SELL, but `stop_loss`
compares against `round(989.01) = 989` and does not fire. -/
theorem stop_loss_exact_threshold_counterexample :
    (0 : ℚ) < 1 ∧ (0 : ℚ) < 98901 / 100
      ∧ get_last_buy_price [{ ttype := "buy", price := 999 }] = some 999
      ∧ (98901 / 100 : ℚ) ≤ 999 * (1 - 1 / 100)
      ∧ stop_loss
          { market_price := 98901 / 100, maximum_loss_percentage := 1 }
          [{ ttype := "buy", price := 999 }] = .ok false := by
  refine ⟨by norm_num, by norm_num, ?_, by norm_num, ?_⟩
  · norm_num [get_last_buy_price, get_latest_csv_transaction]
  · norm_num [stop_loss, get_last_buy_price, get_latest_csv_transaction,
      pyRound]

/-- C2 amended: under a positive loss percentage, a positive market price
and a recorded positive last buy price, `stop_loss` fires exactly when
`market_price ≤ round(last_buy_price × (1 − loss%/100))`, rounded to the
nearest integer with ties to even (Python `round`). -/
theorem stop_loss_threshold (state : AppState) (rows : List TxRow) (lastp : ℚ)
    (h1 : 0 < state.maximum_loss_percentage) (h2 : 0 < state.market_price)
    (h3 : get_last_buy_price rows = some lastp) (h4 : 0 < lastp) :
    stop_loss state rows
      = .ok (decide (state.market_price
          ≤ (pyRound (lastp
              * (1 - state.maximum_loss_percentage / 100)) : ℚ))) := by
  unfold stop_loss
  rw [if_neg (by push_neg; exact ⟨ne_of_gt h1, ne_of_gt h2⟩), h3]
  simp only [ne_of_gt h4, ne_eq, not_false_eq_true, if_true]
  rw [show lastp - lastp * (state.maximum_loss_percentage / 100)
      = lastp * (1 - state.maximum_loss_percentage / 100) by ring]
  by_cases hc : state.market_price
      ≤ (pyRound (lastp * (1 - state.maximum_loss_percentage / 100)) : ℚ)
  · rw [if_pos hc, decide_eq_true hc]
  · rw [if_neg hc, decide_eq_false hc]

/-- Witness for C2's amended theorem: loss 10%, buy at 1000, market 900,
where the rounded threshold is 900 and the stop-loss fires. -/
theorem stop_loss_threshold_witness :
    (0 : ℚ) < 10 ∧ (0 : ℚ) < 900
      ∧ get_last_buy_price [{ ttype := "buy", price := 1000 }] = some 1000
      ∧ (0 : ℚ) < 1000
      ∧ stop_loss { market_price := 900, maximum_loss_percentage := 10 }
          [{ ttype := "buy", price := 1000 }]
        = .ok (decide ((900 : ℚ) ≤ (pyRound ((1000 : ℚ)
            * (1 - (10 : ℚ) / 100)) : ℚ))) :=
  ⟨by norm_num, by norm_num,
    by norm_num [get_last_buy_price, get_latest_csv_transaction], by norm_num,
    stop_loss_threshold
      { market_price := 900, maximum_loss_percentage := 10 }
      [{ ttype := "buy", price := 1000 }] 1000 (by norm_num) (by norm_num)
      (by norm_num [get_last_buy_price, get_latest_csv_transaction])
      (by norm_num)⟩

/-- C10: evaluation of `stop_loss` at the failing input — a configured
stop-loss, a positive market price and no recorded buy — where the code
raises `UnboundLocalError` (the final log line references `max_loss`,
assigned only when a last buy price was found) instead of returning
`False` as the claim states. -/
theorem stop_loss_no_buy_raises :
    stop_loss { market_price := 100, maximum_loss_percentage := 5 } []
      = .error "UnboundLocalError: max_loss referenced before assignment" := by
  norm_num [stop_loss, get_last_buy_price, get_latest_csv_transaction]

/-- Modelled from the spec: the per-cycle evaluation driver is not among
the provided sources (`src/` holds the decision function `getAction` but
no caller of it that tracks `buy_count`/`sell_count`); spec §4.3 requires
that a BUY intent while `buy_count > sell_count` (an un-sold prior buy is
still held) be suppressed, with no new buy order placed.  The driver
passes the state's `last_action` to `getAction` and downgrades a
suppressed BUY intent to WAIT. -/
def evaluate_cycle (df_last : SignalRow) (state : AppState)
    (rows : List TxRow) : Except String String :=
  (getAction df_last state.last_action state rows).map (fun a =>
    if a = "BUY" ∧ state.sell_count < state.buy_count then "WAIT" else a)

/-- C6: whenever `buy_count > sell_count`, an evaluation never emits BUY,
whatever the bar's flags and `last_action` are. -/
theorem buy_suppressed_while_holding (df_last : SignalRow) (state : AppState)
    (rows : List TxRow) (h : state.sell_count < state.buy_count) :
    evaluate_cycle df_last state rows ≠ .ok "BUY" := by
  unfold evaluate_cycle
  cases hga : getAction df_last state.last_action state rows with
  | error e => simp [Except.map]
  | ok a =>
    simp only [Except.map]
    intro hc
    injection hc with hc
    by_cases hb : a = "BUY"
    · rw [if_pos ⟨hb, h⟩] at hc
      exact absurd hc (by decide)
    · rw [if_neg (fun hand => hb hand.1)] at hc
      exact hb hc

/-- Witness for C6: one held position (`buy_count = 1 > sell_count = 0`),
a golden-cross bar and `last_action = WAIT`, where the raw decision would
be BUY but the evaluation does not emit it. -/
theorem buy_suppressed_while_holding_witness :
    0 < 1
      ∧ evaluate_cycle { golden_cross_ema := true }
          { last_action := "WAIT", buy_count := 1, sell_count := 0 } []
        ≠ .ok "BUY" :=
  ⟨by norm_num,
    buy_suppressed_while_holding { golden_cross_ema := true }
      { last_action := "WAIT", buy_count := 1, sell_count := 0 } []
      (by norm_num)⟩

/-- A named indicator column: numeric or boolean. -/
inductive Col where
  | num : List ℚ → Col
  | flag : List Bool → Col
deriving DecidableEq

/-- The dataframe held by a `TechnicalAnalysis` object: the base `close`
column plus the appended named indicator columns in insertion order. -/
structure Df where
  close : List ℚ
  cols : List (String × Col)
deriving DecidableEq

/-- Embeds `name in df`: pandas column membership. -/
def hasCol (df : Df) (n : String) : Bool :=
  df.cols.any (fun e => e.1 == n)

/-- Embeds `df[name] = value`: replace the column in place when it exists,
append it otherwise. -/
def setCol (df : Df) (n : String) (c : Col) : Df :=
  { df with cols :=
      if df.cols.any (fun e => e.1 == n) then
        df.cols.map (fun e => if e.1 == n then (n, c) else e)
      else df.cols ++ [(n, c)] }

/-- Embeds `df[name]` lookup. -/
def getCol? (df : Df) (n : String) : Option Col :=
  (df.cols.find? (fun e => e.1 == n)).map Prod.snd

/-- Embeds `df[name]` read as a numeric column; a missing (or boolean) column is
a `KeyError`. -/
def getNum (df : Df) (n : String) : Except String (List ℚ) :=
  match getCol? df n with
  | some (.num v) => .ok v
  | _ => .error ("KeyError: " ++ n)

theorem any_map_set (cols : List (String × Col)) (n : String) (c : Col) :
    (cols.map (fun e => if e.1 == n then (n, c) else e)).any (fun e => e.1 == n)
      = cols.any (fun e => e.1 == n) := by
  induction cols with
  | nil => rfl
  | cons a t ih =>
    rw [List.map_cons, List.any_cons, List.any_cons, ih]
    by_cases h : a.1 = n
    · rw [if_pos (by simpa using h)]
      simp [h]
    · rw [if_neg (by simpa using h)]

theorem any_map_set_ne (cols : List (String × Col)) (m n : String) (c' : Col)
    (h : n ≠ m) :
    (cols.map (fun e => if e.1 == m then (m, c') else e)).any
        (fun e => e.1 == n)
      = cols.any (fun e => e.1 == n) := by
  induction cols with
  | nil => rfl
  | cons a t ih =>
    rw [List.map_cons, List.any_cons, List.any_cons, ih]
    by_cases ham : a.1 = m
    · rw [if_pos (by simpa using ham)]
      have h1 : ((m, c').1 == n) = false := by
        simpa using fun hc => h hc.symm
      have h2 : (a.1 == n) = false := by
        simpa using fun hc => h (ham ▸ hc).symm
      rw [h1, h2]
    · rw [if_neg (by simpa using ham)]

theorem find?_map_set_ne (cols : List (String × Col)) (m n : String) (c' : Col)
    (h : n ≠ m) :
    (cols.map (fun e => if e.1 == m then (m, c') else e)).find?
        (fun e => e.1 == n)
      = cols.find? (fun e => e.1 == n) := by
  induction cols with
  | nil => rfl
  | cons a t ih =>
    rw [List.map_cons]
    by_cases ham : a.1 = m
    · have h1 : List.find? (fun e => e.1 == n)
          ((if a.1 == m then (m, c') else a)
            :: t.map (fun e => if e.1 == m then (m, c') else e))
          = List.find? (fun e => e.1 == n)
              (t.map (fun e => if e.1 == m then (m, c') else e)) :=
        List.find?_cons_of_neg _ (by
          rw [if_pos (by simpa using ham)]
          simpa using fun hc => h hc.symm)
      have h2 : List.find? (fun e => e.1 == n) (a :: t)
          = List.find? (fun e => e.1 == n) t :=
        List.find?_cons_of_neg _ (by simpa using fun hc => h (ham ▸ hc).symm)
      rw [h1, h2, ih]
    · have heq : (if a.1 == m then (m, c') else a) = a := by
        rw [if_neg (by simpa using ham)]
      rw [heq]
      by_cases han : a.1 = n
      · have h1 : List.find? (fun e => e.1 == n)
            (a :: t.map (fun e => if e.1 == m then (m, c') else e)) = some a :=
          List.find?_cons_of_pos _ (by simpa using han)
        have h2 : List.find? (fun e => e.1 == n) (a :: t) = some a :=
          List.find?_cons_of_pos _ (by simpa using han)
        rw [h1, h2]
      · have h1 : List.find? (fun e => e.1 == n)
            (a :: t.map (fun e => if e.1 == m then (m, c') else e))
            = List.find? (fun e => e.1 == n)
                (t.map (fun e => if e.1 == m then (m, c') else e)) :=
          List.find?_cons_of_neg _ (by simpa using han)
        have h2 : List.find? (fun e => e.1 == n) (a :: t)
            = List.find? (fun e => e.1 == n) t :=
          List.find?_cons_of_neg _ (by simpa using han)
        rw [h1, h2, ih]

theorem find?_append_none {α : Type} (l1 l2 : List α) (p : α → Bool)
    (h : l1.find? p = none) : (l1 ++ l2).find? p = l2.find? p := by
  induction l1 with
  | nil => rfl
  | cons a t ih =>
    rw [List.find?_cons] at h
    cases hp : p a with
    | true => rw [hp] at h; exact absurd h (by simp)
    | false =>
      rw [hp] at h
      rw [List.cons_append, List.find?_cons, hp]
      exact ih h

theorem close_setCol (df : Df) (n : String) (c : Col) :
    (setCol df n c).close = df.close := rfl

theorem hasCol_setCol_self (df : Df) (n : String) (c : Col) :
    hasCol (setCol df n c) n = true := by
  unfold hasCol setCol
  by_cases h : df.cols.any (fun e => e.1 == n) = true
  · rw [if_pos h, any_map_set]
    exact h
  · rw [if_neg h, List.any_append]
    simp

theorem hasCol_setCol_mono (df : Df) (n m : String) (c : Col)
    (h : hasCol df n = true) : hasCol (setCol df m c) n = true := by
  by_cases hnm : n = m
  · rw [hnm]; exact hasCol_setCol_self df m c
  · unfold hasCol setCol
    unfold hasCol at h
    by_cases hm : df.cols.any (fun e => e.1 == m) = true
    · rw [if_pos hm, any_map_set_ne _ _ _ _ hnm]
      exact h
    · rw [if_neg hm, List.any_append, h, Bool.true_or]

theorem getCol?_setCol_ne (df : Df) (n m : String) (c : Col) (h : n ≠ m) :
    getCol? (setCol df m c) n = getCol? df n := by
  unfold getCol? setCol
  by_cases hm : df.cols.any (fun e => e.1 == m) = true
  · rw [if_pos hm, find?_map_set_ne _ _ _ _ h]
  · rw [if_neg hm]
    cases hf : df.cols.find? (fun e => e.1 == n) with
    | some e => rw [List.find?_append, hf]; rfl
    | none =>
      rw [find?_append_none _ _ _ hf]
      have h1 : List.find? (fun e => e.1 == n) ([(m, c)] : List (String × Col))
          = List.find? (fun e => e.1 == n) ([] : List (String × Col)) :=
        List.find?_cons_of_neg _ (by simpa using fun hc => h hc.symm)
      rw [h1]
      rfl

theorem getNum_setCol_ne (df : Df) (n m : String) (c : Col) (h : n ≠ m) :
    getNum (setCol df m c) n = getNum df n := by
  unfold getNum
  rw [getCol?_setCol_ne df n m c h]

/-- The column `n` is present and every entry named `n` carries exactly
the value `c` (after a `setCol df n c` this holds even if the incoming
frame had duplicate column names). -/
def colIs (df : Df) (n : String) (c : Col) : Prop :=
  hasCol df n = true ∧ ∀ e ∈ df.cols, e.1 = n → e = (n, c)

theorem colIs_setCol_self (df : Df) (n : String) (c : Col) :
    colIs (setCol df n c) n c := by
  refine ⟨hasCol_setCol_self df n c, ?_⟩
  unfold setCol
  by_cases hm : df.cols.any (fun e => e.1 == n) = true
  · rw [if_pos hm]
    intro e he hen
    obtain ⟨a, hat, ha⟩ := List.mem_map.mp he
    by_cases hka : a.1 = n
    · rw [← ha, if_pos (by simpa using hka)]
    · have hea : e = a := by rw [← ha, if_neg (by simpa using hka)]
      rw [hea] at hen
      exact absurd hen hka
  · rw [if_neg hm]
    intro e he hen
    rcases List.mem_append.mp he with hl | hr
    · rw [Bool.not_eq_true, List.any_eq_false] at hm
      exact absurd (by simpa using hen) (by simpa using hm e hl)
    · simpa using hr

theorem colIs_setCol_ne (df : Df) (n m : String) (c c' : Col) (h : n ≠ m)
    (hc : colIs df n c) : colIs (setCol df m c') n c := by
  refine ⟨hasCol_setCol_mono df n m c' hc.1, ?_⟩
  unfold setCol
  by_cases hm : df.cols.any (fun e => e.1 == m) = true
  · rw [if_pos hm]
    intro e he hen
    obtain ⟨a, hat, ha⟩ := List.mem_map.mp he
    by_cases hka : a.1 = m
    · have hem : e = (m, c') := by rw [← ha, if_pos (by simpa using hka)]
      have hmn : m = n := by rw [hem] at hen; exact hen
      exact absurd hmn.symm h
    · have hea : e = a := by rw [← ha, if_neg (by simpa using hka)]
      rw [hea] at hen ⊢
      exact hc.2 a hat hen
  · rw [if_neg hm]
    intro e he hen
    rcases List.mem_append.mp he with hl | hr
    · exact hc.2 e hl hen
    · have hem : e = (m, c') := by simpa using hr
      have hmn : m = n := by rw [hem] at hen; exact hen
      exact absurd hmn.symm h

theorem setCol_eq_of_colIs (df : Df) (n : String) (c : Col)
    (h : colIs df n c) : setCol df n c = df := by
  have hmap : df.cols.map (fun e => if e.1 == n then (n, c) else e)
      = df.cols := by
    conv_rhs => rw [← List.map_id df.cols]
    apply List.map_congr_left
    intro e he
    by_cases hk : e.1 = n
    · rw [if_pos (by simpa using hk), h.2 e he hk]; rfl
    · rw [if_neg (by simpa using hk)]; rfl
  have h1 : (df.cols.any fun e => e.1 == n) = true := h.1
  unfold setCol
  rw [if_pos h1, hmap]

theorem setCol_setCol (df : Df) (n : String) (c : Col) :
    setCol (setCol df n c) n c = setCol df n c :=
  setCol_eq_of_colIs _ _ _ (colIs_setCol_self df n c)

theorem bind_ok {α β : Type} (e : Except String α) (k : α → Except String β)
    (b : β) : e.bind k = .ok b ↔ ∃ a, e = .ok a ∧ k a = .ok b := by
  cases e with
  | error err => simp [Except.bind]
  | ok a => simp [Except.bind]

/-- Embeds `TechnicalAnalysis.add_sma`: validates the period (as in
`simple_moving_average`, which it calls) and assigns the
`sma{period}` column. -/
def add_sma (df : Df) (p : ℕ) : Except String Df :=
  (simple_moving_average p df.close).map (fun v =>
    setCol df ("sma" ++ toString p) (.num v))

/-- Embeds `TechnicalAnalysis.add_ema`: the `ema{period}` column. -/
def add_ema (df : Df) (p : ℕ) : Except String Df :=
  (exponential_moving_average p df.close).map (fun v =>
    setCol df ("ema" ++ toString p) (.num v))

/-- The `if "sma{p}" not in self.df: self.add_sma(p)` steps of
`add_golden_cross`. -/
def ensure_sma (df : Df) (p : ℕ) : Except String Df :=
  if hasCol df ("sma" ++ toString p) then .ok df else add_sma df p

/-- The EMA prerequisite step of `add_golden_cross`.  The Python
condition `if not "ema5" or not "ema20" in self.df.columns` evaluates as
`(not "ema5") or ("ema20" not in columns)`, so both EMAs are (re)computed
exactly when `ema20` is absent. -/
def ensure_ema_pair (df : Df) : Except String Df :=
  if hasCol df "ema20" then .ok df
  else (add_ema df 5).bind (fun dfe => add_ema dfe 20)

/-- Embeds `TechnicalAnalysis.add_golden_cross`: computes missing moving-average
prerequisites on demand, then assigns the `golden_cross` (SMA5/SMA20) and
`golden_cross_ema` (EMA5/EMA20) crossover-flag columns. -/
def add_golden_cross (df : Df) : Except String Df :=
  (ensure_sma df 5).bind (fun df1 =>
  (ensure_sma df1 20).bind (fun df2 =>
  (getNum df2 "sma5").bind (fun s5 =>
  (getNum df2 "sma20").bind (fun s20 =>
  (ensure_ema_pair (setCol df2 "golden_cross" (.flag (gcFlag s5 s20)))).bind
    (fun df4 =>
  (getNum df4 "ema5").bind (fun e5 =>
  (getNum df4 "ema20").map (fun e20 =>
    setCol df4 "golden_cross_ema" (.flag (gcFlag e5 e20)))))))))

theorem add_sma_ok_eq (df df1 : Df) (p : ℕ) (h : add_sma df p = .ok df1) :
    df1 = setCol df ("sma" ++ toString p) (.num (rollingMean p df.close)) := by
  unfold add_sma simple_moving_average at h
  split_ifs at h
  · simp [Except.map] at h
  · simp [Except.map] at h
  · simp only [Except.map] at h
    injection h with h
    exact h.symm

theorem add_ema_ok_eq (df df1 : Df) (p : ℕ) (h : add_ema df p = .ok df1) :
    df1 = setCol df ("ema" ++ toString p) (.num (ewm (2 / (p + 1)) df.close)) := by
  unfold add_ema exponential_moving_average at h
  split_ifs at h
  · simp [Except.map] at h
  · simp [Except.map] at h
  · simp only [Except.map] at h
    injection h with h
    exact h.symm

theorem ensure_sma_ok (df df1 : Df) (p : ℕ) (h : ensure_sma df p = .ok df1) :
    df1.close = df.close
      ∧ hasCol df1 ("sma" ++ toString p) = true
      ∧ (∀ n, hasCol df n = true → hasCol df1 n = true)
      ∧ (∀ n, n ≠ ("sma" ++ toString p) → getNum df1 n = getNum df n)
      ∧ (∀ n c, n ≠ ("sma" ++ toString p) → colIs df n c → colIs df1 n c) := by
  unfold ensure_sma at h
  split_ifs at h with hc
  · injection h with h
    subst h
    exact ⟨rfl, hc, fun n hn => hn, fun n _ => rfl, fun n c _ hcc => hcc⟩
  · have hd := add_sma_ok_eq df df1 p h
    subst hd
    exact ⟨rfl, hasCol_setCol_self _ _ _,
      fun n hn => hasCol_setCol_mono _ _ _ _ hn,
      fun n hne => getNum_setCol_ne _ _ _ _ hne,
      fun n c hne hcc => colIs_setCol_ne _ _ _ _ _ hne hcc⟩

theorem ensure_ema_pair_ok (df df4 : Df) (h : ensure_ema_pair df = .ok df4) :
    df4.close = df.close
      ∧ hasCol df4 "ema20" = true
      ∧ (∀ n, hasCol df n = true → hasCol df4 n = true)
      ∧ (∀ n, n ≠ "ema5" → n ≠ "ema20" → getNum df4 n = getNum df n)
      ∧ (∀ n c, n ≠ "ema5" → n ≠ "ema20" → colIs df n c → colIs df4 n c) := by
  unfold ensure_ema_pair at h
  split_ifs at h with hc
  · injection h with h
    subst h
    exact ⟨rfl, hc, fun n hn => hn, fun n _ _ => rfl, fun n c _ _ hcc => hcc⟩
  · rw [bind_ok] at h
    obtain ⟨dfe, he1, he2⟩ := h
    have hd1 := add_ema_ok_eq _ _ _ he1
    have hd2 := add_ema_ok_eq _ _ _ he2
    subst hd2
    subst hd1
    have h5 : ("ema" ++ toString 5) = "ema5" := rfl
    have h20 : ("ema" ++ toString 20) = "ema20" := rfl
    rw [h5, h20]
    refine ⟨rfl, hasCol_setCol_self _ _ _,
      fun n hn =>
        hasCol_setCol_mono _ _ _ _ (hasCol_setCol_mono _ _ _ _ hn),
      fun n hn5 hn20 => ?_, fun n c hn5 hn20 hcc => ?_⟩
    · rw [getNum_setCol_ne _ _ _ _ (h20 ▸ hn20), getNum_setCol_ne _ _ _ _ (h5 ▸ hn5)]
    · exact colIs_setCol_ne _ _ _ _ _ (h20 ▸ hn20)
        (colIs_setCol_ne _ _ _ _ _ (h5 ▸ hn5) hcc)

theorem map_ok {α β : Type} (e : Except String α) (f : α → β) (b : β) :
    e.map f = .ok b ↔ ∃ a, e = .ok a ∧ f a = b := by
  cases e with
  | error err => simp [Except.map]
  | ok a => simp [Except.map]

theorem sma_guards_ok (df df1 : Df) (p : ℕ) (h : add_sma df p = .ok df1) :
    ¬(p < 5 ∨ 200 < p) ∧ ¬(df.close.length < p) := by
  unfold add_sma simple_moving_average at h
  split_ifs at h with h1 h2
  · simp [Except.map] at h
  · simp [Except.map] at h
  · exact ⟨h1, h2⟩

theorem ema_guards_ok (df df1 : Df) (p : ℕ) (h : add_ema df p = .ok df1) :
    ¬(p < 5 ∨ 200 < p) ∧ ¬(df.close.length < p) := by
  unfold add_ema exponential_moving_average at h
  split_ifs at h with h1 h2
  · simp [Except.map] at h
  · simp [Except.map] at h
  · exact ⟨h1, h2⟩

/-- C8: re-invoking an indicator-adding operation on a series that
already holds its column recomputes exactly the same values and leaves
every column of the series unchanged — `add_sma`, `add_ema` and
`add_golden_cross` are idempotent on success. -/
theorem add_indicator_idempotent :
    (∀ (df df' : Df) (p : ℕ), add_sma df p = .ok df' → add_sma df' p = .ok df')
      ∧ (∀ (df df' : Df) (p : ℕ), add_ema df p = .ok df' → add_ema df' p = .ok df')
      ∧ (∀ df df' : Df, add_golden_cross df = .ok df' →
          add_golden_cross df' = .ok df') := by
  refine ⟨?_, ?_, ?_⟩
  · intro df df' p h
    obtain ⟨hg1, hg2⟩ := sma_guards_ok df df' p h
    have hd := add_sma_ok_eq df df' p h
    have hclose : df'.close = df.close := by rw [hd]; rfl
    unfold add_sma simple_moving_average
    rw [hclose, if_neg hg1, if_neg hg2]
    simp only [Except.map]
    rw [hd, setCol_setCol]
  · intro df df' p h
    obtain ⟨hg1, hg2⟩ := ema_guards_ok df df' p h
    have hd := add_ema_ok_eq df df' p h
    have hclose : df'.close = df.close := by rw [hd]; rfl
    unfold add_ema exponential_moving_average
    rw [hclose, if_neg hg1, if_neg hg2]
    simp only [Except.map]
    rw [hd, setCol_setCol]
  · intro df df' h
    unfold add_golden_cross at h
    rw [bind_ok] at h
    obtain ⟨df1, h1, h⟩ := h
    rw [bind_ok] at h
    obtain ⟨df2, h2, h⟩ := h
    rw [bind_ok] at h
    obtain ⟨s5, hs5, h⟩ := h
    rw [bind_ok] at h
    obtain ⟨s20, hs20, h⟩ := h
    rw [bind_ok] at h
    obtain ⟨df4, h4, h⟩ := h
    rw [bind_ok] at h
    obtain ⟨e5, he5, h⟩ := h
    rw [map_ok] at h
    obtain ⟨e20, he20, hdf'⟩ := h
    obtain ⟨hc1, hhas1, hmono1, hget1, hcol1⟩ := ensure_sma_ok df df1 5 h1
    obtain ⟨hc2, hhas2, hmono2, hget2, hcol2⟩ := ensure_sma_ok df1 df2 20 h2
    obtain ⟨hc4, hhas4, hmono4, hget4, hcol4⟩ := ensure_ema_pair_ok _ df4 h4
    have hdf2_sma5 : hasCol df2 "sma5" = true := hmono2 _ hhas1
    have hdf4_sma5 : hasCol df4 "sma5" = true :=
      hmono4 _ (hasCol_setCol_mono _ _ _ _ hdf2_sma5)
    have hdf4_sma20 : hasCol df4 "sma20" = true :=
      hmono4 _ (hasCol_setCol_mono _ _ _ _ hhas2)
    have hdf'_sma5 : hasCol df' ("sma" ++ toString 5) = true := by
      rw [← hdf']
      exact hasCol_setCol_mono _ _ _ _ hdf4_sma5
    have hdf'_sma20 : hasCol df' ("sma" ++ toString 20) = true := by
      rw [← hdf']
      exact hasCol_setCol_mono _ _ _ _ hdf4_sma20
    have hdf'_ema20 : hasCol df' "ema20" = true := by
      rw [← hdf']
      exact hasCol_setCol_mono _ _ _ _ hhas4
    have hget_sma5 : getNum df' "sma5" = .ok s5 := by
      rw [← hdf', getNum_setCol_ne _ _ _ _ (by decide),
        hget4 "sma5" (by decide) (by decide),
        getNum_setCol_ne _ _ _ _ (by decide)]
      exact hs5
    have hget_sma20 : getNum df' "sma20" = .ok s20 := by
      rw [← hdf', getNum_setCol_ne _ _ _ _ (by decide),
        hget4 "sma20" (by decide) (by decide),
        getNum_setCol_ne _ _ _ _ (by decide)]
      exact hs20
    have hget_ema5 : getNum df' "ema5" = .ok e5 := by
      rw [← hdf', getNum_setCol_ne _ _ _ _ (by decide)]
      exact he5
    have hget_ema20 : getNum df' "ema20" = .ok e20 := by
      rw [← hdf', getNum_setCol_ne _ _ _ _ (by decide)]
      exact he20
    have hcol_gc : colIs df' "golden_cross" (.flag (gcFlag s5 s20)) := by
      rw [← hdf']
      exact colIs_setCol_ne _ _ _ _ _ (by decide)
        (hcol4 "golden_cross" _ (by decide) (by decide)
          (colIs_setCol_self df2 "golden_cross" _))
    have hcol_gce : colIs df' "golden_cross_ema" (.flag (gcFlag e5 e20)) := by
      rw [← hdf']
      exact colIs_setCol_self _ _ _
    unfold add_golden_cross
    rw [bind_ok]
    refine ⟨df', by unfold ensure_sma; rw [if_pos hdf'_sma5], ?_⟩
    rw [bind_ok]
    refine ⟨df', by unfold ensure_sma; rw [if_pos hdf'_sma20], ?_⟩
    rw [bind_ok]
    refine ⟨s5, hget_sma5, ?_⟩
    rw [bind_ok]
    refine ⟨s20, hget_sma20, ?_⟩
    rw [bind_ok]
    refine ⟨df', ?_, ?_⟩
    · rw [setCol_eq_of_colIs _ _ _ hcol_gc]
      unfold ensure_ema_pair
      rw [if_pos hdf'_ema20]
    · rw [bind_ok]
      refine ⟨e5, hget_ema5, ?_⟩
      rw [map_ok]
      exact ⟨e20, hget_ema20, setCol_eq_of_colIs _ _ _ hcol_gce⟩

/-- A fresh 20-row series with no indicator columns. -/
def dfW : Df := ⟨List.replicate 20 0, []⟩

/-- The frame produced by `add_sma dfW 5`. -/
def dfWsma : Df :=
  match add_sma dfW 5 with | .ok d => d | .error _ => dfW

/-- The frame produced by `add_ema dfW 5`. -/
def dfWema : Df :=
  match add_ema dfW 5 with | .ok d => d | .error _ => dfW

/-- The frame produced by `add_golden_cross dfW`. -/
def dfWgc : Df :=
  match add_golden_cross dfW with | .ok d => d | .error _ => dfW

/-- Witness for C8 on the fresh 20-row series: each of the three
operations succeeds, and re-running it on its own output returns that
output unchanged. -/
theorem add_indicator_idempotent_witness :
    (add_sma dfW 5 = .ok dfWsma ∧ add_sma dfWsma 5 = .ok dfWsma)
      ∧ (add_ema dfW 5 = .ok dfWema ∧ add_ema dfWema 5 = .ok dfWema)
      ∧ (add_golden_cross dfW = .ok dfWgc
          ∧ add_golden_cross dfWgc = .ok dfWgc) := by
  have h1 : add_sma dfW 5 = .ok dfWsma := rfl
  have h2 : add_ema dfW 5 = .ok dfWema := rfl
  have h3 : add_golden_cross dfW = .ok dfWgc := rfl
  exact ⟨⟨h1, add_indicator_idempotent.1 dfW dfWsma 5 h1⟩,
    ⟨h2, (add_indicator_idempotent.2).1 dfW dfWema 5 h2⟩,
    ⟨h3, (add_indicator_idempotent.2).2 dfW dfWgc h3⟩⟩

end TukangKripto
